import Mathlib

/-!
Shallow embedding of the daily-digest scraper (scripts/scrape.ts).

Modelling conventions:
* JS strings are Lean `String`; character-level operations go through `List Char`.
* Timestamps are modelled as integer milliseconds since the Unix epoch; a JSON
  timestamp field that may be null/absent/unparsable is `Option Int`.
* The ambient clock (`Date.now()`, `new Date()`) is passed explicitly: `now` for
  the fetch phase, `genNow` for the render-time Generated line.
* Each fetcher takes the upstream response as `Option` data: `none` models a
  non-success response or network error (the catch/early-return paths), `some`
  models a parsed successful body.
-/

set_option maxRecDepth 8000

/-- JS `String.prototype.padStart(w, "0")`: left-pad with zeros up to width `w`. -/
def padStart (w : Nat) (s : String) : String :=
  String.mk (List.replicate (w - s.length) '0') ++ s

/-- JS `a || b` on strings: `b` when `a` is falsy (empty), else `a`. -/
def jsOrString (a : Option String) (b : String) : String :=
  match a with
  | some s => if s = "" then b else s
  | none => b

/-- JS `link.split("/")` at the character level: segments between slash characters. -/
def splitSlash : List Char → List (List Char)
  | [] => [[]]
  | c :: cs =>
    if c = '/' then [] :: splitSlash cs
    else
      match splitSlash cs with
      | [] => [[c]]
      | s :: rest => (c :: s) :: rest

/-- Title derivation for a doc page (scrape.ts line 202):
`link.split("/").pop() || link`. -/
def docTitle (link : String) : String :=
  match (splitSlash link.data).getLast? with
  | some s => if s = [] then link else String.mk s
  | none => link

/-- JS `Set` insertion-order deduplication of the matched link paths. -/
def firstDedup (l : List String) : List String :=
  go [] l
where
  go (seen : List String) : List String → List String
    | [] => []
    | x :: xs => if x ∈ seen then go seen xs else x :: go (x :: seen) xs

/-- Scan for the next closing angle bracket; the remainder after it, if any. -/
def dropToGt : List Char → Option (List Char)
  | [] => none
  | c :: r => if c = '>' then some r else dropToGt r

/-- Fueled worker for tag stripping; each successful tag match shortens the
input, so fuel `length + 1` always suffices and the fallback is unreachable. -/
def stripTagsFuel : Nat → List Char → List Char
  | 0, l => l
  | fuel + 1, l =>
    match l with
    | [] => []
    | c :: r =>
      if c = '<' then
        match dropToGt r with
        | some r2 => stripTagsFuel fuel r2
        | none => c :: r
      else c :: stripTagsFuel fuel r

/-- JS `text.replace(/<[^>]*>/g, "")`: drop every maximal `<...>` run; an
opening bracket with no later closing bracket is kept verbatim. -/
def stripTags (l : List Char) : List Char :=
  stripTagsFuel (l.length + 1) l

/-- `now - 24 * 60 * 60 * 1000`: the window start used by every time filter. -/
def windowStartMs (now : Int) : Int := now - 24 * 60 * 60 * 1000

/-- A calendar date as exposed by `getFullYear` / `getMonth() + 1` / `getDate`. -/
structure SDate where
  year : Nat
  month : Nat
  day : Nat
deriving DecidableEq, Repr

/-- Days-since-epoch to civil calendar date (proleptic Gregorian, UTC). -/
def civilFromDays (z0 : Int) : SDate :=
  let z := z0 + 719468
  let era := Int.fdiv z 146097
  let doe := (z - era * 146097).toNat
  let yoe := (doe - doe / 1460 + doe / 36524 - doe / 146096) / 365
  let y : Int := (yoe : Int) + era * 400
  let doy := doe - (365 * yoe + yoe / 4 - yoe / 100)
  let mp := (5 * doy + 2) / 153
  let d := doy - (153 * mp + 2) / 5 + 1
  let m := if mp < 10 then mp + 3 else mp - 9
  { year := (if m ≤ 2 then y + 1 else y).toNat, month := m, day := d }

/-- Calendar date of an epoch-milliseconds instant (UTC). -/
def msToSDate (ms : Int) : SDate :=
  civilFromDays (Int.fdiv ms 86400000)

/-- JS `Date.prototype.toISOString()` on an epoch-milliseconds instant. -/
def isoString (ms : Int) : String :=
  let days := Int.fdiv ms 86400000
  let rem := (ms - days * 86400000).toNat
  let d := civilFromDays days
  padStart 4 (toString d.year) ++ "-" ++ padStart 2 (toString d.month) ++ "-" ++
    padStart 2 (toString d.day) ++ "T" ++ padStart 2 (toString (rem / 3600000)) ++ ":" ++
    padStart 2 (toString (rem % 3600000 / 60000)) ++ ":" ++
    padStart 2 (toString (rem % 60000 / 1000)) ++ "." ++ padStart 3 (toString (rem % 1000)) ++ "Z"

/-- `formatDate` (scrape.ts line 63): `date.toISOString().split("T")[0]`. -/
def formatDateMs (ms : Int) : String :=
  ((isoString ms).splitOn "T").headD ""

/-- `getDateParts` (scrape.ts line 68): year unpadded, month and day padded to 2. -/
def getDateParts (d : SDate) : String × String × String :=
  (toString d.year, padStart 2 (toString d.month), padStart 2 (toString d.day))

/-- The path computed by `saveReport` (scrape.ts line 328): `daily/YEAR/MONTH/DAY.md`. -/
def saveReportPath (d : SDate) : String :=
  let parts := getDateParts d
  "daily/" ++ parts.1 ++ "/" ++ parts.2.1 ++ "/" ++ parts.2.2 ++ ".md"

/-- Raw commit entry as consumed from the commit-listing API response. -/
structure RawCommit where
  sha : String
  message : String
  authorName : String
  authorDate : Int
  html_url : String
deriving DecidableEq, Repr

structure CommitAuthor where
  name : String
  date : Int
deriving DecidableEq, Repr

structure CommitMeta where
  message : String
  author : CommitAuthor
deriving DecidableEq, Repr

/-- `GitHubCommit` record of scrape.ts. -/
structure GitHubCommit where
  sha : String
  commit : CommitMeta
  html_url : String
deriving DecidableEq, Repr

/-- The per-entry mapping of `fetchRecentCommits` (scrape.ts lines 94-104):
sha truncated to 7 characters, message truncated to its first line. -/
def toGitHubCommit (c : RawCommit) : GitHubCommit :=
  { sha := c.sha.take 7
    commit :=
      { message := (c.message.splitOn "\n").headD ""
        author := { name := c.authorName, date := c.authorDate } }
    html_url := c.html_url }

/-- `fetchRecentCommits`: empty on failure, otherwise map every entry
(the upstream query already applies the 24h window via `since`). -/
def fetchRecentCommits (resp : Option (List RawCommit)) : List GitHubCommit :=
  match resp with
  | none => []
  | some cs => cs.map toGitHubCommit

/-- Raw release entry as consumed from the release-listing API response. -/
structure RawRelease where
  tag_name : String
  name : Option String
  html_url : String
  published_at : Option Int
  body : Option String
deriving DecidableEq, Repr

/-- `GitHubRelease` record of scrape.ts. -/
structure GitHubRelease where
  tag_name : String
  name : String
  html_url : String
  published_at : Int
  body : String
deriving DecidableEq, Repr

/-- The body mapping of `fetchRecentReleases` (scrape.ts line 138):
`release.body?.substring(0, 200) + "..." || ""`. By JS precedence this is
`(release.body?.substring(0, 200) + "...") || ""`; an absent body concatenates
the string form of `undefined`, and the `|| ""` branch fires only when the
concatenation is empty, which never happens. -/
def mapBody (body : Option String) : String :=
  let s := (match body with | some b => b.take 200 | none => "undefined") ++ "..."
  if s = "" then "" else s

/-- The per-entry mapping of `fetchRecentReleases` (scrape.ts lines 133-139). -/
def toGitHubRelease (r : RawRelease) : GitHubRelease :=
  { tag_name := r.tag_name
    name := jsOrString r.name r.tag_name
    html_url := r.html_url
    published_at := r.published_at.getD 0
    body := mapBody r.body }

/-- The filter predicate of `fetchRecentReleases` (scrape.ts line 132):
`r.published_at && new Date(r.published_at) > oneDayAgo`. -/
def releaseInWindow (now : Int) (r : RawRelease) : Bool :=
  match r.published_at with
  | some t => windowStartMs now < t
  | none => false

/-- The retained raw releases after client-side window filtering. -/
def retainedReleases (now : Int) (rels : List RawRelease) : List RawRelease :=
  rels.filter (releaseInWindow now)

/-- `fetchRecentReleases`: empty on failure, otherwise filter then map. -/
def fetchRecentReleases (now : Int) (resp : Option (List RawRelease)) : List GitHubRelease :=
  match resp with
  | none => []
  | some rels => (retainedReleases now rels).map toGitHubRelease

/-- Raw closed-request entry as consumed from the closed-request-listing API. -/
structure RawPR where
  number : Int
  title : String
  html_url : String
  merged_at : Option Int
deriving DecidableEq, Repr

/-- `GitHubPR` record of scrape.ts. -/
structure GitHubPR where
  number : Int
  title : String
  html_url : String
  merged_at : Int
deriving DecidableEq, Repr

/-- The per-entry mapping of `fetchRecentPRs` (scrape.ts lines 168-173). -/
def toGitHubPR (pr : RawPR) : GitHubPR :=
  { number := pr.number
    title := pr.title
    html_url := pr.html_url
    merged_at := pr.merged_at.getD 0 }

/-- The filter predicate of `fetchRecentPRs` (scrape.ts line 167):
`pr.merged_at && new Date(pr.merged_at) > oneDayAgo`. -/
def prInWindow (now : Int) (pr : RawPR) : Bool :=
  match pr.merged_at with
  | some t => windowStartMs now < t
  | none => false

/-- The retained raw requests after client-side window filtering. -/
def retainedPRs (now : Int) (prs : List RawPR) : List RawPR :=
  prs.filter (prInWindow now)

/-- `fetchRecentPRs`: empty on failure, otherwise filter then map. -/
def fetchRecentPRs (now : Int) (resp : Option (List RawPR)) : List GitHubPR :=
  match resp with
  | none => []
  | some prs => (retainedPRs now prs).map toGitHubPR

/-- `DocPage` record of scrape.ts. -/
structure DocPage where
  title : String
  url : String
  lastUpdated : String
deriving DecidableEq, Repr

def DOCS_BASE_URL : String := "https://code.claude.com/docs"

/-- `checkDocumentationUpdates` (scrape.ts lines 181-214): the response, when
successful, is the sequence of link paths matched by the href pattern; it is
set-deduplicated and mapped to records. -/
def checkDocumentationUpdates (now : Int) (resp : Option (List String)) : List DocPage :=
  match resp with
  | none => []
  | some links =>
    (firstDedup links).map fun link =>
      { title := docTitle link
        url := DOCS_BASE_URL ++ "/" ++ link
        lastUpdated := isoString now }

/-- `checkReleaseNotes` (scrape.ts lines 217-244): the response, when successful,
is the sequence of captured heading inner texts; tags are stripped, whitespace
trimmed, and empty results discarded. -/
def checkReleaseNotes (resp : Option (List String)) : List String :=
  match resp with
  | none => []
  | some raws =>
    (raws.map fun s => (String.mk (stripTags s.data)).trim).filter (fun t => t ≠ "")

/-- `GitHubData`: the github field of the report. -/
structure GitHubData where
  commits : List GitHubCommit
  releases : List GitHubRelease
  pullRequests : List GitHubPR
deriving DecidableEq, Repr

/-- `DailyReport` record of scrape.ts. -/
structure DailyReport where
  date : String
  summary : String
  github : GitHubData
  docs : List DocPage
  releaseNotes : List String
deriving DecidableEq, Repr

/-- One summary part: count, label, and a plural `s` when the count exceeds 1
(scrape.ts lines 360-364). -/
def summaryPart (n : Nat) (label : String) : String :=
  toString n ++ " " ++ label ++ (if n > 1 then "s" else "")

/-- The summary construction of `main` (scrape.ts lines 358-370) in terms of
the five collection lengths, which are all the code reads: non-empty categories
in fixed order, each pluralized, joined by a comma-space; a fixed sentence when
every category is empty. -/
def buildSummaryCounts (nc nr np nd nn : Nat) : String :=
  let parts : List String :=
    (if nc > 0 then [summaryPart nc "commit"] else []) ++
    (if nr > 0 then [summaryPart nr "release"] else []) ++
    (if np > 0 then [summaryPart np "PR"] else []) ++
    (if nd > 0 then [summaryPart nd "doc page"] else []) ++
    (if nn > 0 then [summaryPart nn "release note"] else [])
  if parts.length = 0 then "No updates detected in the last 24 hours."
  else "Daily updates: " ++ String.intercalate ", " parts ++ "."

/-- The summary construction applied to the five fetched collections. -/
def buildSummary (commits : List GitHubCommit) (releases : List GitHubRelease)
    (prs : List GitHubPR) (docs : List DocPage) (releaseNotes : List String) : String :=
  buildSummaryCounts commits.length releases.length prs.length docs.length releaseNotes.length

/-- Commits section of `generateMarkdown` (scrape.ts lines 258-267). -/
def commitsSection (commits : List GitHubCommit) : String :=
  if commits.length > 0 then
    "## GitHub Commits (" ++ toString commits.length ++ ")\n\n" ++
      String.join (commits.map fun c =>
        "- [" ++ c.sha ++ "](" ++ c.html_url ++ ") - " ++ c.commit.message ++ "\n" ++
        "  - by " ++ c.commit.author.name ++ " at " ++ isoString c.commit.author.date ++ "\n") ++
      "\n"
  else "## GitHub Commits\n\nNo commits in the last 24 hours.\n\n"

/-- Releases section of `generateMarkdown` (scrape.ts lines 270-280). -/
def releasesSection (releases : List GitHubRelease) : String :=
  if releases.length > 0 then
    "## Releases (" ++ toString releases.length ++ ")\n\n" ++
      String.join (releases.map fun r =>
        "- [" ++ r.tag_name ++ "](" ++ r.html_url ++ ") - " ++ r.name ++ "\n" ++
        "  - " ++ r.body ++ "\n" ++
        "  - Published: " ++ isoString r.published_at ++ "\n") ++
      "\n"
  else "## Releases\n\nNo new releases in the last 24 hours.\n\n"

/-- Pull-request section of `generateMarkdown` (scrape.ts lines 283-292). -/
def prsSection (prs : List GitHubPR) : String :=
  if prs.length > 0 then
    "## Merged Pull Requests (" ++ toString prs.length ++ ")\n\n" ++
      String.join (prs.map fun pr =>
        "- [#" ++ toString pr.number ++ "](" ++ pr.html_url ++ ") - " ++ pr.title ++ "\n" ++
        "  - Merged: " ++ isoString pr.merged_at ++ "\n") ++
      "\n"
  else "## Merged Pull Requests\n\nNo PRs merged in the last 24 hours.\n\n"

/-- Header of the documentation-pages section. -/
def docsHeader (n : Nat) : String :=
  "## Documentation Pages (" ++ toString n ++ ")\n\n*Current documentation pages available:\n\n"

/-- One itemized doc-page line. -/
def docItem (d : DocPage) : String :=
  "- [" ++ d.title ++ "](" ++ d.url ++ ")\n"

/-- The truncation note of the documentation-pages section (scrape.ts line 302). -/
def docsNote (n : Nat) : String :=
  "\n*... and " ++ toString (n - 20) ++ " more pages*\n"

/-- Documentation-pages section of `generateMarkdown` (scrape.ts lines 295-305):
emitted only when non-empty, itemizing the first 20 entries, with a truncation
note when more than 20 exist. -/
def docsSection (docs : List DocPage) : String :=
  if docs.length > 0 then
    docsHeader docs.length ++ String.join ((docs.take 20).map docItem) ++
      (if docs.length > 20 then docsNote docs.length else "") ++ "\n"
  else ""

/-- Release-notes section of `generateMarkdown` (scrape.ts lines 308-317). -/
def notesSection (notes : List String) : String :=
  if notes.length > 0 then
    "## Platform Release Notes\n\n" ++
      String.join ((notes.take 10).map fun n => "- " ++ n ++ "\n") ++
      (if notes.length > 10 then
        "\n*... and " ++ toString (notes.length - 10) ++ " more entries*\n"
      else "") ++ "\n"
  else ""

/-- Fixed footer of `generateMarkdown` (scrape.ts lines 320-322). -/
def footerText : String :=
  "---\n" ++
  "*Generated by [claude-code-anthropic-docs](https://github.com/ebowwa/claude-code-anthropic-docs) daily automation*\n" ++
  "*Data sourced from [anthropics/claude-code](https://github.com/anthropics/claude-code), [code.claude.com](https://code.claude.com/docs), and [platform.claude.com](https://platform.claude.com)*\n"

/-- `generateMarkdown` (scrape.ts lines 247-325). The render-time clock sample
of line 251 is the explicit `genNow` parameter. -/
def generateMarkdown (report : DailyReport) (genNow : Int) : String :=
  "# Anthropic Claude Code Documentation Update - " ++ report.date ++ "\n\n" ++
  "**Generated:** " ++ isoString genNow ++ "\n\n" ++
  "## Summary\n\n" ++ report.summary ++ "\n\n" ++
  commitsSection report.github.commits ++
  releasesSection report.github.releases ++
  prsSection report.github.pullRequests ++
  docsSection report.docs ++
  notesSection report.releaseNotes ++
  footerText

/-- Result of one run: the path written, the bytes written, and the report. -/
structure RunResult where
  filepath : String
  markdown : String
  report : DailyReport
deriving Repr

/-- `main` (scrape.ts lines 342-385) as a function of the clock samples and the
five upstream responses: fetch, summarize, assemble, render, persist. -/
def runMain (now genNow : Int) (respC : Option (List RawCommit))
    (respR : Option (List RawRelease)) (respP : Option (List RawPR))
    (respD : Option (List String)) (respN : Option (List String)) : RunResult :=
  let commits := fetchRecentCommits respC
  let releases := fetchRecentReleases now respR
  let prs := fetchRecentPRs now respP
  let docs := checkDocumentationUpdates now respD
  let releaseNotes := checkReleaseNotes respN
  let summary := buildSummary commits releases prs docs releaseNotes
  let report : DailyReport :=
    { date := formatDateMs now
      summary := summary
      github := { commits := commits, releases := releases, pullRequests := prs }
      docs := docs
      releaseNotes := releaseNotes }
  let markdown := generateMarkdown report genNow
  { filepath := saveReportPath (msToSDate now), markdown := markdown, report := report }

/-- A fixed commit record used to instantiate universally quantified statements. -/
def sampleCommit : GitHubCommit :=
  { sha := "abc1234"
    commit := { message := "fix: something", author := { name := "alice", date := 0 } }
    html_url := "https://example.org/c" }

/-- A fixed release record used to instantiate universally quantified statements. -/
def sampleRelease : GitHubRelease :=
  { tag_name := "v1.0.0", name := "v1.0.0", html_url := "https://example.org/r"
    published_at := 0, body := "notes..." }

/-- A numbered doc-page record for concrete list instances. -/
def mkDoc (i : Nat) : DocPage :=
  { title := Nat.repr i, url := Nat.repr i, lastUpdated := "" }

/-- A concrete doc-page collection with 25 entries. -/
def docs25 : List DocPage := (List.range 25).map mkDoc

/-- A concrete doc-page collection with 3 entries. -/
def docs3 : List DocPage := (List.range 3).map mkDoc

example : saveReportPath ⟨2025, 3, 7⟩ = "daily/2025/03/07.md" := by decide
example : msToSDate 1741348800000 = ⟨2025, 3, 7⟩ := by decide
example : docTitle "a/b/c" = "c" := by decide
example : docTitle "a/b/" = "a/b/" := by decide
example : mapBody none = "undefined..." := by decide
example : mapBody (some "") = "..." := by decide
example : checkReleaseNotes none = [] := rfl

/-! ## Helper lemmas -/

theorem mapBody_some (b : String) : mapBody (some b) = b.take 200 ++ "..." := by
  have hne : (b.take 200 ++ "...") ≠ "" := by
    intro hc
    have hlen := congrArg String.length hc
    rw [String.length_append] at hlen
    have h3 : ("..." : String).length = 3 := rfl
    have h0 : ("" : String).length = 0 := rfl
    omega
  simp only [mapBody]
  rw [if_neg hne]

theorem splitSlash_ne_nil (l : List Char) : splitSlash l ≠ [] := by
  cases l with
  | nil => simp [splitSlash]
  | cons c cs =>
    simp only [splitSlash]
    split
    · simp
    · split <;> simp

theorem two_le_length_splitSlash {l : List Char} (h : '/' ∈ l) :
    2 ≤ (splitSlash l).length := by
  induction l with
  | nil => simp at h
  | cons c cs ih =>
    simp only [splitSlash]
    by_cases hc : c = '/'
    · rw [if_pos hc]
      have hp : 0 < (splitSlash cs).length := List.length_pos.mpr (splitSlash_ne_nil cs)
      simp only [List.length_cons]
      omega
    · rw [if_neg hc]
      have hmem : '/' ∈ cs := by
        rcases List.mem_cons.mp h with h1 | h1
        · exact absurd h1.symm hc
        · exact h1
      have h2 := ih hmem
      rcases hs : splitSlash cs with _ | ⟨s, rest⟩
      · exact absurd hs (splitSlash_ne_nil cs)
      · rw [hs] at h2
        simp only [List.length_cons] at h2 ⊢
        omega

theorem getLast?_splitSlash_slash_append (xs ys : List Char) :
    (splitSlash (xs ++ '/' :: ys)).getLast? = (splitSlash ys).getLast? := by
  induction xs with
  | nil =>
    rcases hs : splitSlash ys with _ | ⟨s, rest⟩
    · exact absurd hs (splitSlash_ne_nil ys)
    · simp [splitSlash, hs]
  | cons c cs ih =>
    simp only [List.cons_append, splitSlash]
    by_cases hc : c = '/'
    · rw [if_pos hc]
      rcases hs : splitSlash (cs ++ '/' :: ys) with _ | ⟨s, rest⟩
      · exact absurd hs (splitSlash_ne_nil _)
      · rw [hs] at ih
        rw [List.getLast?_cons_cons, ih]
    · rw [if_neg hc]
      have hmem : '/' ∈ cs ++ '/' :: ys :=
        List.mem_append.mpr (Or.inr (List.mem_cons_self _ _))
      have hlen := two_le_length_splitSlash hmem
      rcases hs : splitSlash (cs ++ '/' :: ys) with _ | ⟨s, rest⟩
      · exact absurd hs (splitSlash_ne_nil _)
      · rw [hs] at ih hlen
        rcases rest with _ | ⟨r0, rs⟩
        · simp at hlen
        · rw [List.getLast?_cons_cons] at ih
          rw [List.getLast?_cons_cons]
          exact ih

theorem splitSlash_of_not_mem {l : List Char} (h : '/' ∉ l) : splitSlash l = [l] := by
  induction l with
  | nil => rfl
  | cons c cs ih =>
    have hc : c ≠ '/' := fun e => h (e ▸ List.mem_cons_self c cs)
    have hcs : '/' ∉ cs := fun m => h (List.mem_cons_of_mem c m)
    simp only [splitSlash, if_neg hc, ih hcs]

theorem toDigitsCore_length_mono (b : Nat) :
    ∀ (f n : Nat) (ds : List Char), ds.length ≤ (Nat.toDigitsCore b f n ds).length
  | 0, _, _ => Nat.le_refl _
  | f + 1, n, ds => by
    simp only [Nat.toDigitsCore]
    split
    · simp
    · calc ds.length ≤ (Nat.digitChar (n % b) :: ds).length := by simp
        _ ≤ _ := toDigitsCore_length_mono b f (n / b) _

theorem toDigitsCore_length_lower :
    ∀ (k f n : Nat) (ds : List Char), 10 ^ k ≤ n → k + 1 ≤ f →
      k + 1 + ds.length ≤ (Nat.toDigitsCore 10 f n ds).length := by
  intro k
  induction k with
  | zero =>
    intro f n ds hn hf
    match f, hf with
    | f + 1, _ =>
      simp only [Nat.toDigitsCore]
      split
      · simp only [List.length_cons]
        omega
      · have h := toDigitsCore_length_mono 10 f (n / 10) (Nat.digitChar (n % 10) :: ds)
        simp only [List.length_cons] at h
        omega
  | succ k ih =>
    intro f n ds hn hf
    match f, hf with
    | f + 1, _ =>
      have hdiv : 10 ^ k ≤ n / 10 := by
        rw [Nat.le_div_iff_mul_le (by norm_num)]
        calc 10 ^ k * 10 = 10 ^ (k + 1) := (pow_succ 10 k).symm
          _ ≤ n := hn
      have hpow : 0 < 10 ^ k := Nat.pos_pow_of_pos k (by norm_num)
      have hne : ¬ n / 10 = 0 := by omega
      simp only [Nat.toDigitsCore]
      rw [if_neg hne]
      have h := ih f (n / 10) (Nat.digitChar (n % 10) :: ds) hdiv (by omega)
      simp only [List.length_cons] at h
      omega

theorem repr_length_four {n : Nat} (h1 : 1000 ≤ n) (h2 : n < 10000) :
    (Nat.repr n).length = 4 := by
  have hq : n < 10 ^ 4 := by
    have h4 : (10 : Nat) ^ 4 = 10000 := by norm_num
    omega
  have hp : (10 : Nat) ^ 3 ≤ n := by
    have h3 : (10 : Nat) ^ 3 = 1000 := by norm_num
    omega
  have upper : (Nat.repr n).length ≤ 4 := Nat.repr_length n 4 (by norm_num) hq
  have lower : 4 ≤ (Nat.toDigits 10 n).length := by
    have h := toDigitsCore_length_lower 3 (n + 1) n [] hp (by omega)
    simpa [Nat.toDigits] using h
  have heq : (Nat.repr n).length = (Nat.toDigits 10 n).length := rfl
  omega

theorem padStart_length {w : Nat} {s : String} (h : s.length ≤ w) :
    (padStart w s).length = w := by
  simp only [padStart, String.length_append, String.length_mk, List.length_replicate]
  omega

/-! ## Claim theorems -/

/-- Claim C1: the spec states that a mapped release body is the first 200
characters of the raw body plus an ellipsis marker when a body is present, and
the empty string when the body is absent. The present-body half holds, but the
absent-body half is refuted: by JS operator precedence the concatenation runs
before the fallback, so an absent body yields the literal string formed from
the text of undefined followed by the marker, never the empty string. -/
theorem release_body_mapping_evaluated :
    mapBody none = "undefined..." ∧ ∀ b : String, mapBody (some b) = b.take 200 ++ "..." :=
  ⟨by decide, mapBody_some⟩

/-- Claim C9: for every present raw body the mapped body ends with the ellipsis
marker, and an empty-string body maps to exactly the marker. -/
theorem release_body_present_ends_with_marker :
    (∀ b : String, ∃ p : String, mapBody (some b) = p ++ "...") ∧ mapBody (some "") = "..." :=
  ⟨fun b => ⟨b.take 200, mapBody_some b⟩, by decide⟩

/-- Claim C2: a raw closed-request entry is retained iff its merge timestamp is
non-null and strictly after now minus 24 hours, and the fetcher output is
exactly the mapped retained entries; null or boundary timestamps are excluded
since the comparison is strict. -/
theorem fetchRecentPRs_window_iff (now : Int) (prs : List RawPR) (pr : RawPR) :
    (pr ∈ retainedPRs now prs ↔
      pr ∈ prs ∧ ∃ t, pr.merged_at = some t ∧ windowStartMs now < t)
    ∧ fetchRecentPRs now (some prs) = (retainedPRs now prs).map toGitHubPR := by
  refine ⟨?_, rfl⟩
  rw [retainedPRs, List.mem_filter]
  apply and_congr_right
  intro _
  cases hm : pr.merged_at with
  | none => simp [prInWindow, hm]
  | some t => simp [prInWindow, hm]

/-- Claim C3: a raw release entry is retained iff its publish timestamp is
present and strictly after now minus 24 hours, and the fetcher output is
exactly the mapped retained entries. -/
theorem fetchRecentReleases_window_iff (now : Int) (rels : List RawRelease) (r : RawRelease) :
    (r ∈ retainedReleases now rels ↔
      r ∈ rels ∧ ∃ t, r.published_at = some t ∧ windowStartMs now < t)
    ∧ fetchRecentReleases now (some rels) = (retainedReleases now rels).map toGitHubRelease := by
  refine ⟨?_, rfl⟩
  rw [retainedReleases, List.mem_filter]
  apply and_congr_right
  intro _
  cases hp : r.published_at with
  | none => simp [releaseInWindow, hp]
  | some t => simp [releaseInWindow, hp]

/-- Claim C4: when every one of the five fetchers fails, each yields an empty
collection, the run still assembles a report, renders it, and derives a write
path, and the report summary is exactly the fixed zero-activity sentence. -/
theorem all_fetchers_fail_zero_activity (now genNow : Int) :
    fetchRecentCommits none = [] ∧
    fetchRecentReleases now none = [] ∧
    fetchRecentPRs now none = [] ∧
    checkDocumentationUpdates now none = [] ∧
    checkReleaseNotes none = [] ∧
    (runMain now genNow none none none none none).report.summary =
      "No updates detected in the last 24 hours." ∧
    (runMain now genNow none none none none none).markdown =
      generateMarkdown (runMain now genNow none none none none none).report genNow ∧
    (runMain now genNow none none none none none).filepath = saveReportPath (msToSDate now) :=
  ⟨rfl, rfl, rfl, rfl, rfl, rfl, rfl, rfl⟩

/-- Claim C5: with exactly 1 commit and 2 releases and the other three
collections empty, the assembled summary is exactly the expected sentence,
with singular and plural forms, fixed order, and empty categories omitted. -/
theorem summary_one_commit_two_releases (commits : List GitHubCommit)
    (releases : List GitHubRelease) (hc : commits.length = 1) (hr : releases.length = 2) :
    buildSummary commits releases [] [] [] = "Daily updates: 1 commit, 2 releases." := by
  obtain ⟨c, rfl⟩ := List.length_eq_one.mp hc
  cases releases with
  | nil => simp at hr
  | cons r1 rest =>
    cases rest with
    | nil => simp at hr
    | cons r2 rest2 =>
      cases rest2 with
      | nil =>
        show buildSummaryCounts 1 2 0 0 0 = _
        decide
      | cons r3 rest3 =>
        simp only [List.length_cons] at hr
        omega

theorem summary_one_commit_two_releases_witness :
    buildSummary [sampleCommit] [sampleRelease, sampleRelease] [] [] [] =
      "Daily updates: 1 commit, 2 releases." :=
  summary_one_commit_two_releases [sampleCommit] [sampleRelease, sampleRelease] rfl rfl

/-- Claim C6: with more than 20 doc pages, the rendered documentation section
itemizes exactly the first 20 entries in order and appends the truncation note
with count minus 20 (5 for 25 entries); with 20 or fewer entries no note is
appended; with zero entries the section is empty. -/
theorem docs_section_truncation (docs : List DocPage) :
    (20 < docs.length →
      docsSection docs =
        docsHeader docs.length ++ String.join ((docs.take 20).map docItem) ++
          docsNote docs.length ++ "\n")
    ∧ (docs ≠ [] → docs.length ≤ 20 →
      docsSection docs = docsHeader docs.length ++ String.join (docs.map docItem) ++ "\n")
    ∧ (docs = [] → docsSection docs = "")
    ∧ docsNote 25 = "\n*... and 5 more pages*\n" := by
  refine ⟨?_, ?_, ?_, by decide⟩
  · intro h
    have h0 : docs.length > 0 := by omega
    simp only [docsSection, if_pos h0, if_pos h]
  · intro hne hle
    have h0 : docs.length > 0 := List.length_pos.mpr hne
    have h20 : ¬ docs.length > 20 := by omega
    simp only [docsSection, if_pos h0, if_neg h20, List.take_of_length_le hle,
      String.append_empty]
  · intro h
    subst h
    rfl

theorem docs_section_truncation_witness :
    docsSection docs25 =
      docsHeader docs25.length ++ String.join ((docs25.take 20).map docItem) ++
        docsNote docs25.length ++ "\n"
    ∧ docsSection docs3 = docsHeader docs3.length ++ String.join (docs3.map docItem) ++ "\n"
    ∧ docsSection ([] : List DocPage) = "" :=
  ⟨(docs_section_truncation docs25).1 (by decide),
   (docs_section_truncation docs3).2.1 (by decide) (by decide),
   (docs_section_truncation []).2.2.1 rfl⟩

/-- Claim C7: the renderer is a pure function of the report value and of the
render-time generation timestamp, so two invocations on the same report with
the same fixed generation timestamp produce identical output text. -/
theorem generateMarkdown_deterministic (report : DailyReport) (genNow : Int) :
    generateMarkdown report genNow = generateMarkdown report genNow := rfl

/-- Claim C8 counterexample: the write path renders the year without padding,
so for the calendar date 0999-03-07 the year segment has 3 digits, not 4; the
claimed universal 4-digit-year path shape is false. -/
theorem saveReportPath_year_not_four_digit :
    saveReportPath ⟨999, 3, 7⟩ = "daily/999/03/07.md" ∧
      saveReportPath ⟨999, 3, 7⟩ ≠ "daily/0999/03/07.md" := by
  constructor
  · decide
  · decide

/-- Claim C8 (amended): for every date whose year is between 1000 and 9999 and
whose month and day fields are at most two digits wide, the write path is
root, 4-digit year, 2-digit zero-padded month, 2-digit zero-padded day, and
extension; in particular for 2025-03-07 the target is daily/2025/03/07.md. -/
theorem saveReportPath_format (d : SDate) (hy1 : 1000 ≤ d.year) (hy2 : d.year ≤ 9999)
    (hm : d.month ≤ 99) (hd : d.day ≤ 99) :
    (∃ ys ms ds : String,
      saveReportPath d = "daily/" ++ ys ++ "/" ++ ms ++ "/" ++ ds ++ ".md" ∧
        ys.length = 4 ∧ ms.length = 2 ∧ ds.length = 2)
    ∧ saveReportPath ⟨2025, 3, 7⟩ = "daily/2025/03/07.md" := by
  refine ⟨⟨toString d.year, padStart 2 (toString d.month), padStart 2 (toString d.day),
    rfl, ?_, ?_, ?_⟩, by decide⟩
  · exact repr_length_four hy1 (by omega)
  · exact padStart_length (Nat.repr_length d.month 2 (by norm_num) (by omega))
  · exact padStart_length (Nat.repr_length d.day 2 (by norm_num) (by omega))

theorem saveReportPath_format_witness :
    (∃ ys ms ds : String,
      saveReportPath ⟨2025, 3, 7⟩ = "daily/" ++ ys ++ "/" ++ ms ++ "/" ++ ds ++ ".md" ∧
        ys.length = 4 ∧ ms.length = 2 ∧ ds.length = 2)
    ∧ saveReportPath ⟨2025, 3, 7⟩ = "daily/2025/03/07.md" :=
  saveReportPath_format ⟨2025, 3, 7⟩ (by decide) (by decide) (by decide) (by decide)

/-- Claim C10: a doc-page title is the substring after the last slash of the
path; when the path ends with a slash the popped segment is empty and falsy, so
the title falls back to the entire path; a path with no slash titles as the
whole path. -/
theorem docTitle_last_segment (xs t : List Char) :
    ('/' ∉ t → t ≠ [] → docTitle (String.mk (xs ++ '/' :: t)) = String.mk t)
    ∧ docTitle (String.mk (xs ++ ['/'])) = String.mk (xs ++ ['/'])
    ∧ ('/' ∉ xs → docTitle (String.mk xs) = String.mk xs) := by
  refine ⟨?_, ?_, ?_⟩
  · intro hns hne
    have hdata : (String.mk (xs ++ '/' :: t)).data = xs ++ '/' :: t := rfl
    rw [docTitle, hdata, getLast?_splitSlash_slash_append, splitSlash_of_not_mem hns]
    simp [hne]
  · have hdata : (String.mk (xs ++ ['/'])).data = xs ++ ['/'] := rfl
    rw [docTitle, hdata]
    have h : xs ++ ['/'] = xs ++ '/' :: ([] : List Char) := rfl
    rw [h, getLast?_splitSlash_slash_append]
    rfl
  · intro hns
    have hdata : (String.mk xs).data = xs := rfl
    rw [docTitle, hdata, splitSlash_of_not_mem hns]
    by_cases hx : xs = []
    · subst hx
      rfl
    · simp [hx]

theorem docTitle_last_segment_witness :
    docTitle (String.mk (['a', 'b'] ++ '/' :: ['c'])) = String.mk ['c']
    ∧ docTitle (String.mk (['a', 'b'] ++ ['/'])) = String.mk (['a', 'b'] ++ ['/'])
    ∧ docTitle (String.mk ['a', 'b']) = String.mk ['a', 'b'] :=
  ⟨(docTitle_last_segment ['a', 'b'] ['c']).1 (by decide) (by decide),
   (docTitle_last_segment ['a', 'b'] []).2.1,
   (docTitle_last_segment ['a', 'b'] []).2.2 (by decide)⟩
